import Mathlib

/-!
Verification of the filter-and-aggregate pipeline of the penguins dashboard
(src/streamlit_app.py), as a shallow embedding over lists of records with
exact rational arithmetic.

The kernel cannot reduce the field operations of ℚ directly, so the
embedding computes with explicit numerator/denominator arithmetic through
Rat.divInt; the theorems qAdd_eq, qSum_eq, qDiv_eq, qMulPow10_eq, meanQ_eq
and pyRound_eq prove that these helpers denote the ordinary rational
operations.
-/

set_option maxRecDepth 8000

/-- Exact rational addition, in a form the kernel can evaluate. -/
def qAdd (a b : ℚ) : ℚ :=
  Rat.divInt (a.num * (b.den : ℤ) + b.num * (a.den : ℤ)) ((a.den : ℤ) * (b.den : ℤ))

/-- Exact rational division (division by zero yields zero, as in Mathlib). -/
def qDiv (a b : ℚ) : ℚ :=
  Rat.divInt (a.num * (b.den : ℤ)) ((a.den : ℤ) * b.num)

/-- Sum of a list of rationals. -/
def qSum (l : List ℚ) : ℚ := l.foldr qAdd 0

/-- Arithmetic mean of a list of rationals (0 for the empty list); this is
what the pandas Series mean computes on a column. -/
def meanQ (l : List ℚ) : ℚ := qDiv (qSum l) (Rat.divInt (l.length : ℤ) 1)

/-- Round a rational to the nearest integer with ties to even: the rounding
rule of the Python builtin round and of the numpy/pandas round.  The test
2 num < (2 floor + 1) den is the comparison q - floor q < 1/2 cleared of
denominators (den is positive). -/
def roundHalfEven (q : ℚ) : ℤ :=
  let f : ℤ := ⌊q⌋
  if 2 * q.num < (2 * f + 1) * (q.den : ℤ) then f
  else if (2 * f + 1) * (q.den : ℤ) < 2 * q.num then f + 1
  else if 2 ∣ f then f else f + 1

/-- Multiply a rational by 10 ^ k, computably. -/
def qMulPow10 (k : ℕ) (q : ℚ) : ℚ := Rat.divInt (q.num * (10 ^ k : ℤ)) (q.den : ℤ)

/-- Python round(x, k) on an exact rational: scale by 10 ^ k, round half to
even, scale back. -/
def pyRound (k : ℕ) (q : ℚ) : ℚ :=
  Rat.divInt (roundHalfEven (qMulPow10 k q)) ((10 ^ k : ℤ))

/-- Fixed-point rendering with exactly two digits after the decimal point of
a non-negative rational: the string produced by the Python format `:.2f`
(the body-mass values of the program are positive, so the non-negative case
suffices). -/
def formatFixed2 (q : ℚ) : String :=
  let n : ℕ := (roundHalfEven (qMulPow10 2 q)).toNat
  toString (n / 100) ++ "." ++
    (if n % 100 < 10 then "0" ++ toString (n % 100) else toString (n % 100))

/-- Code-point lexicographic comparison of character lists: the string
ordering of Python, used by the pandas sort of string group keys. -/
def charListLe : List Char → List Char → Bool
  | [], _ => true
  | _ :: _, [] => false
  | a :: as, b :: bs =>
    if a.toNat < b.toNat then true
    else if b.toNat < a.toNat then false
    else charListLe as bs

/-- Code-point lexicographic order on strings, as a Bool. -/
def strLeB (a b : String) : Bool := charListLe a.data b.data

/-- Code-point lexicographic order on strings, as a relation. -/
def strLeR (a b : String) : Prop := strLeB a b = true

instance : DecidableRel strLeR := fun a b => instDecidableEqBool (strLeB a b) true

instance : IsTotal String strLeR := by
  constructor
  intro a b
  show charListLe a.data b.data = true ∨ charListLe b.data a.data = true
  generalize a.data = x
  generalize b.data = y
  induction x generalizing y with
  | nil => left; rfl
  | cons c cs ih =>
    cases y with
    | nil => right; rfl
    | cons d ds =>
      rcases Nat.lt_trichotomy c.toNat d.toNat with h | h | h
      · left
        simp [charListLe, h]
      · have h1 : ¬ c.toNat < d.toNat := by omega
        have h2 : ¬ d.toNat < c.toNat := by omega
        rcases ih ds with hc | hc
        · left
          simp [charListLe, h1, h2, hc]
        · right
          simp [charListLe, h1, h2, hc]
      · right
        simp [charListLe, h]

instance : IsTrans String strLeR := by
  constructor
  intro a b c hab hbc
  show charListLe a.data c.data = true
  replace hab : charListLe a.data b.data = true := hab
  replace hbc : charListLe b.data c.data = true := hbc
  generalize a.data = x at hab ⊢
  generalize b.data = y at hab hbc
  generalize c.data = z at hbc ⊢
  induction x generalizing y z with
  | nil => rfl
  | cons u us ih =>
    cases y with
    | nil => simp [charListLe] at hab
    | cons v vs =>
      cases z with
      | nil => simp [charListLe] at hbc
      | cons w ws =>
        simp only [charListLe] at hab hbc ⊢
        by_cases huv : u.toNat < v.toNat
        · by_cases hvw : v.toNat < w.toNat
          · have : u.toNat < w.toNat := by omega
            simp [this]
          · by_cases hwv : w.toNat < v.toNat
            · simp [if_neg hvw, if_pos hwv] at hbc
            · have : u.toNat < w.toNat := by omega
              simp [this]
        · by_cases hvu : v.toNat < u.toNat
          · simp [if_neg huv, if_pos hvu] at hab
          · simp only [if_neg huv, if_neg hvu] at hab
            by_cases hvw : v.toNat < w.toNat
            · have : u.toNat < w.toNat := by omega
              simp [this]
            · by_cases hwv : w.toNat < v.toNat
              · simp [if_neg hvw, if_pos hwv] at hbc
              · have h1 : ¬ u.toNat < w.toNat := by omega
                have h2 : ¬ w.toNat < u.toNat := by omega
                simp only [if_neg hvw, if_neg hwv] at hbc
                simp [h1, h2, ih vs hab ws hbc]

/-- The distinct values of a list in order of first appearance: the order in
which pandas first meets each group key. -/
def firstSeen : List String → List String
  | [] => []
  | s :: rest => s :: (firstSeen rest).filter (fun t => decide (t ≠ s))

/-- One row of the dataset (one observation), after the loader has dropped
every row with a missing value (line 22 of the source).  Numeric fields are
modelled as exact rationals. -/
structure Record where
  species : String
  island : String
  sex : String
  bill_length_mm : ℚ
  bill_depth_mm : ℚ
  body_mass_g : ℚ
deriving DecidableEq

/-- The user filter configuration: each multiselect widget yields a list of
chosen values (empty list = no restriction, mirroring the Python truthiness
tests `if species:` of lines 78-83); the slider yields inclusive body-mass
bounds. -/
structure FilterCriteria where
  species : List String
  island : List String
  sex : List String
  massRange : ℚ × ℚ
deriving DecidableEq

/-- One categorical filtering statement of the source, lines 78-83
(`if species: df_selection = df_selection[df_selection["species"].isin(species)]`):
when the selection list is non-empty, keep the rows whose field value is a
member of it; otherwise leave the frame unchanged. -/
def catStep (field : Record → String) (sel : List String) (l : List Record) :
    List Record :=
  if sel.isEmpty then l else l.filter (fun r => decide (field r ∈ sel))

/-- The always-applied body-mass filter of lines 87-90:
rows with slider lower bound <= body_mass_g and body_mass_g <= upper bound. -/
def massStep (lo hi : ℚ) (l : List Record) : List Record :=
  l.filter (fun r => decide (lo ≤ r.body_mass_g) && decide (r.body_mass_g ≤ hi))

/-- The whole filtering chain of lines 74-90: start from the loaded frame,
apply the three categorical filters in source order, then the body-mass
range filter. -/
def dfSelection (df : List Record) (c : FilterCriteria) : List Record :=
  massStep c.massRange.1 c.massRange.2
    (catStep (fun r => r.sex) c.sex
      (catStep (fun r => r.island) c.island
        (catStep (fun r => r.species) c.species df)))

/-- The body-mass column of a frame. -/
def massList (l : List Record) : List ℚ := l.map (fun r => r.body_mass_g)

/-- Column minimum of body mass (pandas Series min of a non-empty column;
0 is a junk value for the empty frame, which the program never queries:
with an empty frame line 63 would fail). -/
def dfMinMass : List Record → ℚ
  | [] => 0
  | r :: rs => (massList rs).foldl min r.body_mass_g

/-- Column maximum of body mass, analogous to dfMinMass. -/
def dfMaxMass : List Record → ℚ
  | [] => 0
  | r :: rs => (massList rs).foldl max r.body_mass_g

/-- Python int() applied to the column extremes in line 63.  int() truncates
toward zero; on the non-negative body-mass values this equals the floor. -/
def pyInt (q : ℚ) : ℤ := ⌊q⌋

/-- The initial value of the body-mass slider (lines 63-69): the pair
(int(min), int(max)) of the observed body masses, which is both the bound
pair and the default selected range of the widget. -/
def sliderDefault (df : List Record) : ℤ × ℤ :=
  (pyInt (dfMinMass df), pyInt (dfMaxMass df))

/-- The option list of a multiselect widget (lines 42-59): the distinct
values of the field in first-seen order, as pandas Series.unique returns
them. -/
def uniqueVals (field : Record → String) (df : List Record) : List String :=
  firstSeen (df.map field)

/-- The three key metrics of lines 106-114: row count, mean bill length
rounded to one decimal, and the body-mass metric string
`f"\x7bavg_body_mass / 1000:.2f\x7d kg"` where avg_body_mass is the column
mean already rounded to one decimal in line 113. -/
structure Metrics where
  count : ℕ
  avgBillLength : ℚ
  avgBodyMassKgDisplay : String
deriving DecidableEq

/-- Computation of the three metrics from the filtered frame
(lines 108, 110, 113-114). -/
def computeMetrics (view : List Record) : Metrics :=
  { count := view.length
    avgBillLength := pyRound 1 (meanQ (view.map (fun r => r.bill_length_mm)))
    avgBodyMassKgDisplay :=
      formatFixed2 (qDiv (pyRound 1 (meanQ (massList view))) 1000) ++ " kg" }

/-- The bar-chart aggregate of line 144:
the groupby of df_selection on species, taking the mean of
body_mass_g per group and rounding to one decimal (line 144).
The pandas groupby sorts the distinct keys (its default sort=True), so the
result maps each species, in code-point sorted order, to the mean body mass
of its rows rounded to one decimal. -/
def aggBySpecies (view : List Record) : List (String × ℚ) :=
  (List.insertionSort strLeR (firstSeen (view.map (fun r => r.species)))).map
    (fun s =>
      (s, pyRound 1 (meanQ (massList (view.filter (fun r => decide (r.species = s)))))))

/-- The scatter-chart data of lines 132-137: a pass-through projection of
the filtered frame to (bill length, bill depth, species). -/
def chartPoints (view : List Record) : List (ℚ × ℚ × String) :=
  view.map (fun r => (r.bill_length_mm, r.bill_depth_mm, r.species))

/-- One full run of lines 74-153 after the widgets are read: filter, then
either halt on the empty view (st.stop, lines 96-98, yielding none and no
derived values) or produce the view, the metrics, the per-species aggregate
and the scatter data. -/
def applyPipeline (df : List Record) (c : FilterCriteria) :
    Option (List Record × Metrics × List (String × ℚ) × List (ℚ × ℚ × String)) :=
  let view := dfSelection df c
  if view.isEmpty then none
  else some (view, computeMetrics view, aggBySpecies view, chartPoints view)

/-- Decidable equality of pipeline output tuples, staged in a named
instance so that instance search stays within its default size limit. -/
instance :
    DecidableEq (List Record × Metrics × List (String × ℚ) × List (ℚ × ℚ × String)) :=
  instDecidableEqProd

/-- A structural copy of the frame: the model of df.copy() in line 74. -/
def dfCopy (l : List Record) : List Record := l.foldr (fun r acc => r :: acc) []

/-- The run of lines 74-153 with the state it touches made explicit: the
loaded frame df is carried through unmodified and returned next to the
outputs, which are computed from the copy taken in line 74 (every later
step rebinds df_selection to a fresh frame; df itself is never written). -/
def pipelineRun (df : List Record) (c : FilterCriteria) :
    List Record ×
      Option (List Record × Metrics × List (String × ℚ) × List (ℚ × ℚ × String)) :=
  (df, applyPipeline (dfCopy df) c)

/-- The body-mass metric string as claim C3 reads the spec: the exact mean
divided by 1000 and then formatted, with no intermediate rounding.  This
definition follows the words of the spec and is compared against the
pipeline value, which rounds the mean to one decimal first. -/
def specAvgBodyMassNoRound (view : List Record) : String :=
  formatFixed2 (qDiv (meanQ (massList view)) 1000) ++ " kg"

/-- The body-mass metric string of the amended claim C3: the mean rounded to
one decimal (Python round, half to even), divided by 1000, then rendered
with two fixed decimals. -/
def specAvgBodyMassRounded (view : List Record) : String :=
  formatFixed2 (qDiv (pyRound 1 (meanQ (massList view))) 1000) ++ " kg"

/-- The per-species aggregate as claim C5 reads the spec: entries in
first-seen order of species in the filtered view.  This definition follows
the words of the spec and is compared against the pipeline value, whose
groupby sorts the keys. -/
def specAggFirstSeen (view : List Record) : List (String × ℚ) :=
  (firstSeen (view.map (fun r => r.species))).map
    (fun s =>
      (s, pyRound 1 (meanQ (massList (view.filter (fun r => decide (r.species = s)))))))

/-- A concrete record used in witnesses. -/
def rAdelie : Record :=
  ⟨"Adelie", "Torgersen", "male", Rat.divInt 391 10, Rat.divInt 187 10, 3750⟩

/-- A concrete record used in witnesses. -/
def rGentoo : Record :=
  ⟨"Gentoo", "Biscoe", "female", Rat.divInt 461 10, Rat.divInt 132 10, 4500⟩

/-- A two-record dataset used in witnesses. -/
def dsTwo : List Record := [rAdelie, rGentoo]

/-- A one-record dataset used in witnesses. -/
def dsOne : List Record := [rAdelie]

/-- A dataset listing Gentoo before Adelie, used to separate first-seen
order from sorted order. -/
def dsGA : List Record := [rGentoo, rAdelie]

/-- A dataset with a non-integer body mass (3750.5 g), used against the
int() truncation of the slider bounds. -/
def dsHalf : List Record :=
  [⟨"Adelie", "Torgersen", "male", 39, 18, Rat.divInt 7501 2⟩]

/-- 24 records of mass 3005 g and one of mass 3006 g: the mean is 3005.04 g,
so rounding it to one decimal (3005.0) before dividing by 1000 changes the
two-decimal rendering (3.00 versus 3.01). -/
def dsMean : List Record :=
  List.replicate 24 ⟨"Adelie", "Torgersen", "male", 40, 18, 3005⟩ ++
    [⟨"Adelie", "Torgersen", "male", 40, 18, 3006⟩]

/-- Criteria selecting the Adelie species with a mass band. -/
def critAdelie : FilterCriteria := ⟨["Adelie"], [], [], (3000, 5000)⟩

/-- Criteria with no categorical restriction and a wide mass band. -/
def critNone : FilterCriteria := ⟨[], [], [], (0, 9000)⟩

/-- The full pipeline output on dsOne with critNone, used in witnesses. -/
def outOne : List Record × Metrics × List (String × ℚ) × List (ℚ × ℚ × String) :=
  ([rAdelie],
   ⟨1, Rat.divInt 391 10, "3.75 kg"⟩,
   [("Adelie", 3750)],
   [(Rat.divInt 391 10, Rat.divInt 187 10, "Adelie")])

theorem qAdd_eq (a b : ℚ) : qAdd a b = a + b := by
  have ha : ((a.den : ℚ)) ≠ 0 := by
    exact_mod_cast a.den_nz
  have hb : ((b.den : ℚ)) ≠ 0 := by
    exact_mod_cast b.den_nz
  rw [qAdd, Rat.divInt_eq_div]
  conv_rhs => rw [← Rat.num_div_den a, ← Rat.num_div_den b]
  rw [div_add_div _ _ ha hb]
  push_cast
  ring_nf

theorem qDiv_eq (a b : ℚ) : qDiv a b = a / b := by
  rcases eq_or_ne b 0 with hb0 | hb0
  · subst hb0
    simp [qDiv]
  · have ha : ((a.den : ℚ)) ≠ 0 := by
      exact_mod_cast a.den_nz
    have hbn : ((b.num : ℚ)) ≠ 0 := by
      exact_mod_cast Rat.num_ne_zero.mpr hb0
    have hbd : ((b.den : ℚ)) ≠ 0 := by
      exact_mod_cast b.den_nz
    rw [qDiv, Rat.divInt_eq_div]
    conv_rhs => rw [← Rat.num_div_den a, ← Rat.num_div_den b]
    push_cast
    field_simp

theorem qSum_eq (l : List ℚ) : qSum l = l.sum := by
  induction l with
  | nil => rfl
  | cons a t ih => simp [qSum, List.foldr, qAdd_eq, ih.symm, List.sum_cons, qSum]

theorem meanQ_eq (l : List ℚ) : meanQ l = l.sum / (l.length : ℚ) := by
  rw [meanQ, qDiv_eq, qSum_eq, Rat.divInt_eq_div]
  norm_num

theorem roundHalfEven_intCast (n : ℤ) : roundHalfEven (n : ℚ) = n := by
  have hnum : ((n : ℚ)).num = n := Rat.intCast_num n
  have hden : ((n : ℚ)).den = 1 := Rat.intCast_den n
  simp only [roundHalfEven, Int.floor_intCast, hnum, hden]
  norm_num

theorem qMulPow10_eq (k : ℕ) (q : ℚ) : qMulPow10 k q = q * 10 ^ k := by
  have ha : ((q.den : ℚ)) ≠ 0 := by
    exact_mod_cast q.den_nz
  rw [qMulPow10, Rat.divInt_eq_div]
  conv_rhs => rw [← Rat.num_div_den q]
  push_cast
  field_simp

theorem pyRound_eq (k : ℕ) (q : ℚ) :
    pyRound k q = (roundHalfEven (q * 10 ^ k) : ℚ) / 10 ^ k := by
  rw [pyRound, Rat.divInt_eq_div, qMulPow10_eq]
  push_cast
  rfl

theorem mem_firstSeen (x : String) (l : List String) :
    x ∈ firstSeen l ↔ x ∈ l := by
  induction l with
  | nil => simp [firstSeen]
  | cons s rest ih =>
    by_cases hx : x = s
    · subst hx
      simp [firstSeen]
    · simp [firstSeen, List.mem_filter, hx, ih]

theorem nodup_firstSeen (l : List String) : (firstSeen l).Nodup := by
  induction l with
  | nil => simp [firstSeen]
  | cons s rest ih =>
    refine List.Nodup.cons ?_ (List.Nodup.filter _ ih)
    intro hmem
    have := List.of_mem_filter hmem
    simp at this

theorem dfCopy_eq (l : List Record) : dfCopy l = l := by
  induction l with
  | nil => rfl
  | cons r t ih =>
    simp only [dfCopy, List.foldr] at ih ⊢
    rw [ih]

theorem catStep_sublist (field : Record → String) (sel : List String)
    (l : List Record) : List.Sublist (catStep field sel l) l := by
  unfold catStep
  split
  · exact List.Sublist.refl l
  · exact List.filter_sublist l

theorem massStep_sublist (lo hi : ℚ) (l : List Record) :
    List.Sublist (massStep lo hi l) l := List.filter_sublist l

theorem dfSelection_sublist (df : List Record) (c : FilterCriteria) :
    List.Sublist (dfSelection df c) df :=
  ((massStep_sublist _ _ _).trans
    ((catStep_sublist _ _ _).trans
      ((catStep_sublist _ _ _).trans (catStep_sublist _ _ _))))

theorem mem_of_catStep {field : Record → String} {sel : List String}
    {l : List Record} {r : Record} (h : r ∈ catStep field sel l) : r ∈ l :=
  (catStep_sublist field sel l).mem h

theorem mem_of_massStep {lo hi : ℚ} {l : List Record} {r : Record}
    (h : r ∈ massStep lo hi l) : r ∈ l :=
  (massStep_sublist lo hi l).mem h

theorem catStep_pred {field : Record → String} {sel : List String}
    {l : List Record} {r : Record} (h : r ∈ catStep field sel l) :
    sel = [] ∨ field r ∈ sel := by
  unfold catStep at h
  split at h
  · left
    exact List.isEmpty_iff.mp (by assumption)
  · right
    have := (List.mem_filter.mp h).2
    simpa using this

theorem massStep_pred {lo hi : ℚ} {l : List Record} {r : Record}
    (h : r ∈ massStep lo hi l) : lo ≤ r.body_mass_g ∧ r.body_mass_g ≤ hi := by
  have := (List.mem_filter.mp h).2
  simpa using this

theorem catStep_eq_self {field : Record → String} {sel : List String}
    {l : List Record} (h : ∀ r ∈ l, field r ∈ sel) :
    catStep field sel l = l := by
  unfold catStep
  split
  · rfl
  · exact List.filter_eq_self.mpr (fun r hr => by simpa using h r hr)

theorem massStep_eq_self {lo hi : ℚ} {l : List Record}
    (h : ∀ r ∈ l, lo ≤ r.body_mass_g ∧ r.body_mass_g ≤ hi) :
    massStep lo hi l = l :=
  List.filter_eq_self.mpr (fun r hr => by
    have := h r hr
    simp [this.1, this.2])

theorem foldl_min_le (l : List ℚ) (a : ℚ) :
    l.foldl min a ≤ a ∧ ∀ x ∈ l, l.foldl min a ≤ x := by
  induction l generalizing a with
  | nil => simp
  | cons b t ih =>
    refine ⟨le_trans (ih (min a b)).1 (min_le_left a b), ?_⟩
    intro x hx
    rcases List.mem_cons.mp hx with rfl | hx
    · exact le_trans (ih (min a x)).1 (min_le_right a x)
    · exact (ih (min a b)).2 x hx

theorem le_foldl_max (l : List ℚ) (a : ℚ) :
    a ≤ l.foldl max a ∧ ∀ x ∈ l, x ≤ l.foldl max a := by
  induction l generalizing a with
  | nil => simp
  | cons b t ih =>
    refine ⟨le_trans (le_max_left a b) (ih (max a b)).1, ?_⟩
    intro x hx
    rcases List.mem_cons.mp hx with rfl | hx
    · exact le_trans (le_max_right a x) (ih (max a x)).1
    · exact (ih (max a b)).2 x hx

theorem dfMinMass_le {df : List Record} {r : Record} (h : r ∈ df) :
    dfMinMass df ≤ r.body_mass_g := by
  cases df with
  | nil => cases h
  | cons r0 rs =>
    rcases List.mem_cons.mp h with rfl | h
    · exact (foldl_min_le (massList rs) r.body_mass_g).1
    · exact (foldl_min_le (massList rs) r0.body_mass_g).2 r.body_mass_g
        (List.mem_map.mpr ⟨r, h, rfl⟩)

theorem le_dfMaxMass {df : List Record} {r : Record} (h : r ∈ df) :
    r.body_mass_g ≤ dfMaxMass df := by
  cases df with
  | nil => cases h
  | cons r0 rs =>
    rcases List.mem_cons.mp h with rfl | h
    · exact (le_foldl_max (massList rs) r.body_mass_g).1
    · exact (le_foldl_max (massList rs) r0.body_mass_g).2 r.body_mass_g
        (List.mem_map.mpr ⟨r, h, rfl⟩)

/-- Claim C1: for every dataset and criteria, the filtered view is an
order-preserving subsequence of the dataset, and every record in it
satisfies the three categorical predicates (membership or empty selection)
and the inclusive mass-range predicate simultaneously. -/
theorem c1_filtered_view_shape (df : List Record) (c : FilterCriteria) :
    List.Sublist (dfSelection df c) df ∧
      ∀ r ∈ dfSelection df c,
        (c.species = [] ∨ r.species ∈ c.species) ∧
        (c.island = [] ∨ r.island ∈ c.island) ∧
        (c.sex = [] ∨ r.sex ∈ c.sex) ∧
        (c.massRange.1 ≤ r.body_mass_g ∧ r.body_mass_g ≤ c.massRange.2) := by
  refine ⟨dfSelection_sublist df c, ?_⟩
  intro r hr
  have h0 : r ∈ massStep c.massRange.1 c.massRange.2
      (catStep (fun r => r.sex) c.sex
        (catStep (fun r => r.island) c.island
          (catStep (fun r => r.species) c.species df))) := hr
  have hx := mem_of_massStep h0
  have hi := mem_of_catStep hx
  have hs := mem_of_catStep hi
  exact ⟨catStep_pred hs, catStep_pred hi, catStep_pred hx, massStep_pred h0⟩

/-- Witness for C1 at a concrete dataset, criteria and record. -/
theorem c1_filtered_view_shape_witness :
    List.Sublist (dfSelection dsTwo critAdelie) dsTwo ∧
      ((critAdelie.species = [] ∨ rAdelie.species ∈ critAdelie.species) ∧
       (critAdelie.island = [] ∨ rAdelie.island ∈ critAdelie.island) ∧
       (critAdelie.sex = [] ∨ rAdelie.sex ∈ critAdelie.sex) ∧
       (critAdelie.massRange.1 ≤ rAdelie.body_mass_g ∧
        rAdelie.body_mass_g ≤ critAdelie.massRange.2)) :=
  ⟨(c1_filtered_view_shape dsTwo critAdelie).1,
   (c1_filtered_view_shape dsTwo critAdelie).2 rAdelie (by decide)⟩

/-- Claim C2: the pipeline yields none (the EmptySelection signal of
st.stop) exactly when the filtered view is empty, so metrics, aggregate
and chart data are produced if and only if the view is non-empty. -/
theorem c2_empty_selection_signal (df : List Record) (c : FilterCriteria) :
    applyPipeline df c = none ↔ dfSelection df c = [] := by
  by_cases hv : dfSelection df c = []
  · simp [applyPipeline, hv]
  · have hne : (dfSelection df c).isEmpty = false := by
      simpa [List.isEmpty_iff] using hv
    simp [applyPipeline, hne, hv]

/-- Claim C3, counterexample: on the 25-record view with mean mass
3005.04 g, the program displays "3.00 kg" (it rounds the mean to one
decimal, 3005.0, before dividing by 1000), while the exact mean divided by
1000 renders as "3.01 kg": the claim that no intermediate rounding is
applied is false on the code. -/
theorem c3_counterexample :
    dfSelection dsMean critNone ≠ [] ∧
      (computeMetrics (dfSelection dsMean critNone)).avgBodyMassKgDisplay =
        "3.00 kg" ∧
      specAvgBodyMassNoRound (dfSelection dsMean critNone) = "3.01 kg" ∧
      (computeMetrics (dfSelection dsMean critNone)).avgBodyMassKgDisplay ≠
        specAvgBodyMassNoRound (dfSelection dsMean critNone) := by
  decide

/-- Claim C3 (amended): for every non-empty filtered view the displayed
body-mass metric equals the mean rounded to one decimal first (Python
round, half to even), divided by 1000 and rendered with exactly two fixed
decimals. -/
theorem c3_amended_display (df : List Record) (c : FilterCriteria)
    (out : List Record × Metrics × List (String × ℚ) × List (ℚ × ℚ × String))
    (h : applyPipeline df c = some out) :
    out.2.1.avgBodyMassKgDisplay = specAvgBodyMassRounded (dfSelection df c) := by
  simp only [applyPipeline] at h
  split at h
  · cases h
  · cases h
    rfl

/-- Witness for the amended C3 at a concrete dataset and criteria. -/
theorem c3_amended_display_witness :
    applyPipeline dsOne critNone = some outOne ∧
      outOne.2.1.avgBodyMassKgDisplay =
        specAvgBodyMassRounded (dfSelection dsOne critNone) :=
  ⟨by decide, c3_amended_display dsOne critNone outOne (by decide)⟩

/-- Claim C4, counterexample: on a dataset whose only body mass is
3750.5 g, the slider default is (3750, 3750), which is not the observed
minimum and maximum: int() truncation makes the default inexact for
non-integer masses. -/
theorem c4_counterexample :
    ¬ ((((sliderDefault dsHalf).1 : ℚ) = dfMinMass dsHalf) ∧
       (((sliderDefault dsHalf).2 : ℚ) = dfMaxMass dsHalf)) := by
  decide

/-- Claim C4 (amended): whenever the observed minimum and maximum body
masses are integer valued (as in the real penguins data), the slider
default equals them exactly; in general it is their int() truncation. -/
theorem c4_amended_default_range (df : List Record)
    (h1 : (dfMinMass df).den = 1) (h2 : (dfMaxMass df).den = 1) :
    ((sliderDefault df).1 : ℚ) = dfMinMass df ∧
      ((sliderDefault df).2 : ℚ) = dfMaxMass df := by
  constructor
  · have hq : ((dfMinMass df).num : ℚ) = dfMinMass df := (Rat.den_eq_one_iff _).mp h1
    have hfloor : ⌊dfMinMass df⌋ = (dfMinMass df).num := by
      conv_lhs => rw [← hq]
      exact Int.floor_intCast _
    show ((⌊dfMinMass df⌋ : ℤ) : ℚ) = dfMinMass df
    rw [hfloor, hq]
  · have hq : ((dfMaxMass df).num : ℚ) = dfMaxMass df := (Rat.den_eq_one_iff _).mp h2
    have hfloor : ⌊dfMaxMass df⌋ = (dfMaxMass df).num := by
      conv_lhs => rw [← hq]
      exact Int.floor_intCast _
    show ((⌊dfMaxMass df⌋ : ℤ) : ℚ) = dfMaxMass df
    rw [hfloor, hq]

/-- Witness for the amended C4 at a concrete integer-valued dataset. -/
theorem c4_amended_default_range_witness :
    (dfMinMass dsTwo).den = 1 ∧ (dfMaxMass dsTwo).den = 1 ∧
      (((sliderDefault dsTwo).1 : ℚ) = dfMinMass dsTwo ∧
       ((sliderDefault dsTwo).2 : ℚ) = dfMaxMass dsTwo) :=
  ⟨by decide, by decide,
   c4_amended_default_range dsTwo (by decide) (by decide)⟩

/-- Claim C5, counterexample: on a view listing a Gentoo record before an
Adelie record, the program aggregate is keyed Adelie then Gentoo (the
pandas groupby sorts its keys), not in first-seen order Gentoo then
Adelie: the insertion-order reading of the claim is false on the code. -/
theorem c5_counterexample :
    dfSelection dsGA critNone ≠ [] ∧
      aggBySpecies (dfSelection dsGA critNone) =
        [("Adelie", 3750), ("Gentoo", 4500)] ∧
      specAggFirstSeen (dfSelection dsGA critNone) =
        [("Gentoo", 4500), ("Adelie", 3750)] ∧
      aggBySpecies (dfSelection dsGA critNone) ≠
        specAggFirstSeen (dfSelection dsGA critNone) := by
  decide

/-- Claim C5 (amended): for every non-empty filtered view, the aggregate
maps each species occurring in the view, exactly once and in code-point
sorted order, to the mean body mass of the rows of that species rounded to
one decimal. -/
theorem c5_amended_sorted_groups (df : List Record) (c : FilterCriteria)
    (out : List Record × Metrics × List (String × ℚ) × List (ℚ × ℚ × String))
    (h : applyPipeline df c = some out) :
    List.Sorted strLeR (out.2.2.1.map Prod.fst) ∧
      (out.2.2.1.map Prod.fst).Nodup ∧
      (∀ s : String, s ∈ out.2.2.1.map Prod.fst ↔
        s ∈ (dfSelection df c).map (fun r => r.species)) ∧
      ∀ p ∈ out.2.2.1,
        p.2 = pyRound 1 (meanQ (massList
          ((dfSelection df c).filter (fun r => decide (r.species = p.1))))) := by
  simp only [applyPipeline] at h
  split at h
  · cases h
  · cases h
    have hmap : (aggBySpecies (dfSelection df c)).map Prod.fst =
        List.insertionSort strLeR
          (firstSeen ((dfSelection df c).map (fun r => r.species))) := by
      unfold aggBySpecies
      rw [List.map_map]
      have hcomp :
          (Prod.fst ∘ fun s =>
            (s, pyRound 1 (meanQ (massList
              ((dfSelection df c).filter (fun r => decide (r.species = s))))))) =
            id := rfl
      rw [hcomp, List.map_id]
    refine ⟨?_, ?_, ?_, ?_⟩
    · rw [hmap]
      exact List.sorted_insertionSort _ _
    · rw [hmap]
      exact ((List.perm_insertionSort strLeR _).nodup_iff).mpr (nodup_firstSeen _)
    · intro s
      rw [hmap, (List.perm_insertionSort strLeR _).mem_iff]
      exact mem_firstSeen s _
    · intro p hp
      unfold aggBySpecies at hp
      rcases List.mem_map.mp hp with ⟨s, hs, rfl⟩
      rfl

/-- Witness for the amended C5 at a concrete dataset and criteria. -/
theorem c5_amended_sorted_groups_witness :
    applyPipeline dsOne critNone = some outOne ∧
      (List.Sorted strLeR (outOne.2.2.1.map Prod.fst) ∧
       (outOne.2.2.1.map Prod.fst).Nodup ∧
       (∀ s : String, s ∈ outOne.2.2.1.map Prod.fst ↔
         s ∈ (dfSelection dsOne critNone).map (fun r => r.species)) ∧
       ∀ p ∈ outOne.2.2.1,
         p.2 = pyRound 1 (meanQ (massList
           ((dfSelection dsOne critNone).filter
             (fun r => decide (r.species = p.1)))))) :=
  ⟨by decide, c5_amended_sorted_groups dsOne critNone outOne (by decide)⟩

/-- Claim C6: with all categorical selections empty and the mass range set
to the observed minimum and maximum, the filtered view is the whole
dataset and the count metric is the dataset size. -/
theorem c6_trivial_criteria_identity (df : List Record) (h : df ≠ []) :
    dfSelection df ⟨[], [], [], (dfMinMass df, dfMaxMass df)⟩ = df ∧
      (computeMetrics
        (dfSelection df ⟨[], [], [], (dfMinMass df, dfMaxMass df)⟩)).count =
        df.length := by
  have hid : dfSelection df ⟨[], [], [], (dfMinMass df, dfMaxMass df)⟩ = df := by
    show massStep (dfMinMass df) (dfMaxMass df) df = df
    exact massStep_eq_self (fun r hr => ⟨dfMinMass_le hr, le_dfMaxMass hr⟩)
  refine ⟨hid, ?_⟩
  rw [hid]
  rfl

/-- Witness for C6 at a concrete dataset. -/
theorem c6_trivial_criteria_identity_witness :
    dsTwo ≠ [] ∧
      (dfSelection dsTwo ⟨[], [], [], (dfMinMass dsTwo, dfMaxMass dsTwo)⟩ = dsTwo ∧
       (computeMetrics
         (dfSelection dsTwo ⟨[], [], [], (dfMinMass dsTwo, dfMaxMass dsTwo)⟩)).count =
         dsTwo.length) :=
  ⟨by decide, c6_trivial_criteria_identity dsTwo (by decide)⟩

/-- Claim C7: replacing an empty categorical selection (species, island or
sex) by the full list of distinct values of that field in the dataset
yields an identical filtered view. -/
theorem c7_full_set_noop (df : List Record) (c : FilterCriteria) :
    (c.species = [] →
      dfSelection df ⟨uniqueVals (fun r => r.species) df, c.island, c.sex, c.massRange⟩ =
        dfSelection df c) ∧
    (c.island = [] →
      dfSelection df ⟨c.species, uniqueVals (fun r => r.island) df, c.sex, c.massRange⟩ =
        dfSelection df c) ∧
    (c.sex = [] →
      dfSelection df ⟨c.species, c.island, uniqueVals (fun r => r.sex) df, c.massRange⟩ =
        dfSelection df c) := by
  obtain ⟨cs, ci, cx, cm⟩ := c
  refine ⟨?_, ?_, ?_⟩
  · intro hs
    replace hs : cs = [] := hs
    subst hs
    have hU : catStep (fun r => r.species) (uniqueVals (fun r => r.species) df) df = df :=
      catStep_eq_self
        (fun r hr => (mem_firstSeen _ _).mpr (List.mem_map.mpr ⟨r, hr, rfl⟩))
    show massStep cm.1 cm.2
        (catStep (fun r => r.sex) cx
          (catStep (fun r => r.island) ci
            (catStep (fun r => r.species) (uniqueVals (fun r => r.species) df) df))) =
      dfSelection df ⟨[], ci, cx, cm⟩
    rw [hU]
    rfl
  · intro hi
    replace hi : ci = [] := hi
    subst hi
    have hU : catStep (fun r => r.island) (uniqueVals (fun r => r.island) df)
        (catStep (fun r => r.species) cs df) =
        catStep (fun r => r.species) cs df :=
      catStep_eq_self
        (fun r hr => (mem_firstSeen _ _).mpr
          (List.mem_map.mpr ⟨r, mem_of_catStep hr, rfl⟩))
    show massStep cm.1 cm.2
        (catStep (fun r => r.sex) cx
          (catStep (fun r => r.island) (uniqueVals (fun r => r.island) df)
            (catStep (fun r => r.species) cs df))) =
      dfSelection df ⟨cs, [], cx, cm⟩
    rw [hU]
    rfl
  · intro hx
    replace hx : cx = [] := hx
    subst hx
    have hU : catStep (fun r => r.sex) (uniqueVals (fun r => r.sex) df)
        (catStep (fun r => r.island) ci (catStep (fun r => r.species) cs df)) =
        catStep (fun r => r.island) ci (catStep (fun r => r.species) cs df) :=
      catStep_eq_self
        (fun r hr => (mem_firstSeen _ _).mpr
          (List.mem_map.mpr ⟨r, mem_of_catStep (mem_of_catStep hr), rfl⟩))
    show massStep cm.1 cm.2
        (catStep (fun r => r.sex) (uniqueVals (fun r => r.sex) df)
          (catStep (fun r => r.island) ci
            (catStep (fun r => r.species) cs df))) =
      dfSelection df ⟨cs, ci, [], cm⟩
    rw [hU]
    rfl

/-- Witness for C7 at a concrete dataset and criteria. -/
theorem c7_full_set_noop_witness :
    (critNone.species = [] ∧
      dfSelection dsTwo
        ⟨uniqueVals (fun r => r.species) dsTwo, critNone.island, critNone.sex,
         critNone.massRange⟩ = dfSelection dsTwo critNone) ∧
    (critNone.island = [] ∧
      dfSelection dsTwo
        ⟨critNone.species, uniqueVals (fun r => r.island) dsTwo, critNone.sex,
         critNone.massRange⟩ = dfSelection dsTwo critNone) ∧
    (critNone.sex = [] ∧
      dfSelection dsTwo
        ⟨critNone.species, critNone.island, uniqueVals (fun r => r.sex) dsTwo,
         critNone.massRange⟩ = dfSelection dsTwo critNone) :=
  ⟨⟨by decide, (c7_full_set_noop dsTwo critNone).1 (by decide)⟩,
   ⟨by decide, (c7_full_set_noop dsTwo critNone).2.1 (by decide)⟩,
   ⟨by decide, (c7_full_set_noop dsTwo critNone).2.2 (by decide)⟩⟩

/-- Claim C8: with empty categorical selections and the mass range set to
(x, x) for an observed body mass x, the filtered view consists exactly of
the records whose body mass equals x. -/
theorem c8_point_mass_range (df : List Record) (x : ℚ) (h : x ∈ massList df) :
    dfSelection df ⟨[], [], [], (x, x)⟩ =
      df.filter (fun r => decide (r.body_mass_g = x)) := by
  show massStep x x df = df.filter (fun r => decide (r.body_mass_g = x))
  unfold massStep
  refine List.filter_congr ?_
  intro r hr
  rw [← Bool.decide_and, decide_eq_decide]
  constructor
  · intro hx
    exact le_antisymm hx.2 hx.1
  · intro hx
    rw [hx]
    exact ⟨le_refl x, le_refl x⟩

/-- Witness for C8 at a concrete dataset and observed mass. -/
theorem c8_point_mass_range_witness :
    (3750 : ℚ) ∈ massList dsTwo ∧
      dfSelection dsTwo ⟨[], [], [], (3750, 3750)⟩ =
        dsTwo.filter (fun r => decide (r.body_mass_g = 3750)) :=
  ⟨by decide, c8_point_mass_range dsTwo 3750 (by decide)⟩

/-- Claim C9: the pipeline is deterministic and stateless: rerunning it on
the state left by a first run, with the same criteria, returns the very
same state and outputs, and the derived outputs agree with a fresh
invocation on the same inputs. -/
theorem c9_deterministic_rerun (df : List Record) (c : FilterCriteria) :
    pipelineRun (pipelineRun df c).1 c = pipelineRun df c ∧
      applyPipeline (pipelineRun df c).1 c = applyPipeline df c :=
  ⟨rfl, rfl⟩

/-- Claim C10: a run of the pipeline leaves the loaded dataset unchanged:
the state component returned is the dataset itself, and the outputs are
those of the pipeline on the copy taken in line 74, which equals the
dataset. -/
theorem c10_dataset_unchanged (df : List Record) (c : FilterCriteria) :
    (pipelineRun df c).1 = df ∧ (pipelineRun df c).2 = applyPipeline df c := by
  constructor
  · rfl
  · show applyPipeline (dfCopy df) c = applyPipeline df c
    rw [dfCopy_eq]
